import Mathlib

/-! Formal model of the mention-aware chat input component
(`webview-ui/src/components/ChatTextArea.tsx`): the buffer-edit handlers, the
context-menu selection state machine, the backspace deletion policy, and the
paste ingestion pipeline, with proofs of their key behavioural properties. -/

namespace ChatText

/-- JavaScript strings are modelled as lists of characters; positions are `Int`
to reflect JavaScript number indexing (out-of-range reads give `undefined`). -/
abbrev JSStr := List Char

/-- `s[i]` in JavaScript: `none` models `undefined` when out of range. -/
def charAt? (s : JSStr) (i : Int) : Option Char :=
  if 0 ≤ i then s.get? i.toNat else none

/-- `s.slice(0, e)` in JavaScript. -/
def jsSliceTo (s : JSStr) (e : Int) : JSStr :=
  s.take (if e < 0 then ((s.length : Int) + e).toNat else e.toNat)

/-- `s.slice(a)` in JavaScript. -/
def jsSliceFrom (s : JSStr) (a : Int) : JSStr :=
  s.drop (if a < 0 then ((s.length : Int) + a).toNat else a.toNat)

/-- `s.slice(a, b)` in JavaScript. -/
def jsSlice (s : JSStr) (a b : Int) : JSStr :=
  let n : Int := s.length
  let a1 := (if a < 0 then max (n + a) 0 else min a n).toNat
  let b1 := (if b < 0 then max (n + b) 0 else min b n).toNat
  (s.take b1).drop a1

/-- `s.indexOf(c, frm)` in JavaScript, for a single-character needle. -/
def jsIndexOf (s : JSStr) (c : Char) (frm : Int) : Int :=
  match (List.range s.length).find? (fun (i : Nat) => decide (frm ≤ (i : Int)) && (s.get? i == some c)) with
  | some i => (i : Int)
  | none => -1

/-- `s.lastIndexOf(c)` in JavaScript, for a single-character needle. -/
def jsLastIndexOf (s : JSStr) (c : Char) : Int :=
  match ((List.range s.length).filter (fun i => s.get? i == some c)).getLast? with
  | some i => (i : Int)
  | none => -1

/-- `s.lastIndexOf(c, frm)` in JavaScript: the last occurrence at a position
`≤ max frm 0` (a negative `fromIndex` is clamped to `0`). -/
def jsLastIndexOfFrom (s : JSStr) (c : Char) (frm : Int) : Int :=
  match ((List.range s.length).filter
      (fun (i : Nat) => decide ((i : Int) ≤ max frm 0) && (s.get? i == some c))).getLast? with
  | some i => (i : Int)
  | none => -1

/-- JavaScript regexp whitespace class `\s`, restricted to the ASCII range
(the only characters the component ever feeds it). -/
def isWhitespaceChar (c : Char) : Bool :=
  c == ' ' || c == '\t' || c == '\n' || c == '\r' || c == '\x0b' || c == '\x0c'

/-- JavaScript regexp word class `\w`, i.e. `[A-Za-z0-9_]`. -/
def isWordChar (c : Char) : Bool :=
  c.isAlphanum || c == '_'

/-- Full match of the body alternative `\/[^\s]+`: a slash followed by one or
more non-whitespace characters. -/
def matchesSlashBody (body : JSStr) : Bool :=
  match body with
  | '/' :: rest => !rest.isEmpty && rest.all (fun c => !isWhitespaceChar c)
  | _ => false

/-- Full match of the body alternative `\w+:\/\/[^\s]+`: a non-empty scheme of
word characters, then `://`, then one or more non-whitespace characters. -/
def matchesUrlBody (body : JSStr) : Bool :=
  (List.range body.length).any (fun k =>
    decide (1 ≤ k) && (body.take k).all isWordChar &&
    ((body.drop k).take 3 == "://".data) &&
    decide (3 < (body.drop k).length) &&
    ((body.drop k).drop 3).all (fun c => !isWhitespaceChar c))

/-- Full match of the regexp group `((?:\/|\w+:\/\/)[^\s]+|problems)`. -/
def mentionBodyMatch (body : JSStr) : Bool :=
  body == "problems".data || matchesSlashBody body || matchesUrlBody body

/-- `s.match(/@((?:\/|\w+:\/\/)[^\s]+|problems)$/) !== null`: some position of
`s` holds an `@` whose remainder, up to the end of the string, matches the
mention body (the `$` anchor forces the match to end at the end of `s`). -/
def endsWithMention (s : JSStr) : Bool :=
  (List.range s.length).any (fun i => (s.get? i == some '@') && mentionBodyMatch (s.drop (i + 1)))

/-- A context-menu candidate as produced by `getContextMenuOptions`. -/
structure MenuOption where
  type : String
  value : String
deriving DecidableEq, Repr

/-- JavaScript array indexing `l[i]` with an `Int` index. -/
def listAt? {α : Type} (l : List α) (i : Int) : Option α :=
  if 0 ≤ i then l.get? i.toNat else none

/-- Positions (indices into `options`) of the selectable, i.e. non-`url`,
candidates.  The source filters the array and then recovers indices through
`findIndex` over object identity; since array elements are distinct object
references, this is equivalent to working with positions directly. -/
def selectablePositions (options : List MenuOption) : List Nat :=
  (List.range options.length).filter (fun i =>
    match options.get? i with
    | some o => !(o.type == "url")
    | none => false)

/-- `Array.prototype.findIndex` looking for the entry equal to `target`. -/
def findIndexInt (l : List Nat) (target : Int) : Int :=
  match l with
  | [] => -1
  | a :: rest =>
    if (a : Int) = target then 0
    else if findIndexInt rest target = -1 then -1 else findIndexInt rest target + 1

/-- Entry of `sel` at position `k`, or `-1` past the end (modelling the
source's `findIndex` miss on an `undefined` lookup). -/
def posAt (sel : List Nat) (k : Nat) : Int :=
  match sel.get? k with
  | some p => (p : Int)
  | none => -1

/-- The ArrowUp/ArrowDown update of `selectedMenuIndex` (source lines 135-158).
The dividend of the JavaScript remainder always lies in `[-1, 2*len]`, and
`-1 % 1` is `-0` which indexes slot `0`, so `Int` `%` (`emod`) agrees with the
JavaScript `%` on every reachable operand. -/
def arrowNewIndex (options : List MenuOption) (dir : Int) (prev : Int) : Int :=
  if options.length = 0 then prev
  else
    let sel := selectablePositions options
    if sel.length = 0 then -1
    else
      let cur := findIndexInt sel prev
      let nw := (cur + dir + (sel.length : Int)) % (sel.length : Int)
      match sel.get? nw.toNat with
      | some p => (p : Int)
      | none => -1

/-- The React state of the component (the fields the verified behaviour uses). -/
structure CState where
  inputValue : JSStr
  cursorPosition : Int
  showContextMenu : Bool
  searchQuery : JSStr
  selectedMenuIndex : Int
  selectedType : Option String
  justDeletedSpaceAfterMention : Bool
  intendedCursorPosition : Option Int
  selectedImages : List String
  isTextAreaFocused : Bool
  isMouseDownOnMenu : Bool
deriving DecidableEq, Repr

/-- Modelled from the spec: `insertMention` is imported from
`utils/mention-context`, whose source is not available.  Per spec section 4.4
it replaces the in-progress `@query` span ending at `cursor` with
`@insertValue` followed by a single trailing space (when no `@` precedes the
cursor, the mention is inserted at the cursor). -/
def insertMention (text : JSStr) (cursor : Int) (value : String) : JSStr :=
  let before := jsSliceTo text cursor
  let after := jsSliceFrom text cursor
  let lastAt := jsLastIndexOf before '@'
  if 0 ≤ lastAt then
    before.take lastAt.toNat ++ ('@' :: value.data ++ [' ']) ++ after
  else
    before ++ ('@' :: value.data ++ [' ']) ++ after

/-- `String.prototype.toLowerCase` (the candidate types are ASCII). -/
def jsToLower (s : String) : String :=
  ⟨s.data.map Char.toLower⟩

/-- The `insertValue` if-chain of `handleMentionSelect` (source lines 98-108). -/
def computeInsertValue (ty value : String) : String :=
  if ty = "url" then value
  else if ty = "file" ∨ ty = "folder" then value
  else if ty = "problems" then "problems"
  else value

/-- `handleMentionSelect` (source lines 86-121).  The textarea ref is always
populated while the menu is interactive, so the `textAreaRef.current` guard is
taken to hold. -/
def handleMentionSelect (st : CState) (ty value : String) : CState :=
  if value = "file" ∨ value = "folder" then
    { st with selectedType := some (jsToLower ty), searchQuery := [], selectedMenuIndex := 0 }
  else
    let newValue := insertMention st.inputValue st.cursorPosition (computeInsertValue ty value)
    let newCursor := jsIndexOf newValue ' ' (jsLastIndexOf newValue '@') + 1
    { st with
      showContextMenu := false
      selectedType := none
      inputValue := newValue
      cursorPosition := newCursor
      intendedCursorPosition := some newCursor }

/-- Step-1 guard of the backspace policy (source lines 183-190): the character
before the cursor is whitespace and the text before that whitespace ends with
a mention pattern.  The source also compares the single character against the
two-character string CRLF, which can never succeed and is therefore dropped. -/
def backspaceStep1Cond (st : CState) : Prop :=
  (charAt? st.inputValue (st.cursorPosition - 1) = some ' ' ∨
    charAt? st.inputValue (st.cursorPosition - 1) = some '\n') ∧
  endsWithMention (jsSliceTo st.inputValue (st.cursorPosition - 1)) = true

instance (st : CState) : Decidable (backspaceStep1Cond st) := by
  unfold backspaceStep1Cond; infer_instance

/-- The source's `charAfterIsWhitespace`: note that it inspects
`inputValue[cursorPosition + 1]`, one position past the character adjacent to
the cursor. -/
def charAfterIsWhitespace (st : CState) : Prop :=
  charAt? st.inputValue (st.cursorPosition + 1) = some ' ' ∨
  charAt? st.inputValue (st.cursorPosition + 1) = some '\n'

instance (st : CState) : Decidable (charAfterIsWhitespace st) := by
  unfold charAfterIsWhitespace; infer_instance

/-- The Backspace branch of `handleKeyDown` (source lines 179-211); `rm` is the
imported `removeMention`.  Returns the new state and whether
`event.preventDefault()` was called (when it was not, the browser's native
single-character deletion proceeds). -/
def backspaceUpdate (rm : JSStr → Int → JSStr × Int) (st : CState) : CState × Bool :=
  if backspaceStep1Cond st then
    ({ st with cursorPosition := st.cursorPosition - 1, justDeletedSpaceAfterMention := true },
      !decide (charAfterIsWhitespace st))
  else if st.justDeletedSpaceAfterMention then
    let r := rm st.inputValue st.cursorPosition
    if r.1 ≠ st.inputValue then
      ({ st with
          inputValue := r.1
          intendedCursorPosition := some r.2
          justDeletedSpaceAfterMention := false
          showContextMenu := false }, true)
    else
      ({ st with justDeletedSpaceAfterMention := false, showContextMenu := false }, false)
  else
    ({ st with justDeletedSpaceAfterMention := false }, false)

/-- A keyboard event (the fields the handler reads). -/
structure KeyEvent where
  key : String
  shiftKey : Bool
  isComposing : Bool
deriving DecidableEq, Repr

/-- Result of `handleKeyDown`: the updated state plus the observable effects.
`mentionCommit` records the candidate passed to `handleMentionSelect` by the
Enter branch. -/
structure KeyDownResult where
  st : CState
  preventDefault : Bool
  onSendCalled : Bool
  mentionCommit : Option MenuOption
deriving DecidableEq, Repr

/-- The part of `handleKeyDown` past the menu block (source lines 173-211). -/
def handleKeyDownRest (rm : JSStr → Int → JSStr × Int) (st : CState) (ev : KeyEvent) :
    KeyDownResult :=
  if ev.key = "Enter" ∧ ev.shiftKey = false ∧ ev.isComposing = false then
    { st := st, preventDefault := true, onSendCalled := true, mentionCommit := none }
  else if ev.key = "Backspace" ∧ ev.isComposing = false then
    { st := (backspaceUpdate rm st).1
      preventDefault := (backspaceUpdate rm st).2
      onSendCalled := false
      mentionCommit := none }
  else
    { st := st, preventDefault := false, onSendCalled := false, mentionCommit := none }

/-- `handleKeyDown` (source lines 123-226); `gco` is the imported
`getContextMenuOptions`, already applied to the host-supplied `searchPaths`. -/
def handleKeyDown (gco : JSStr → Option String → List MenuOption)
    (rm : JSStr → Int → JSStr × Int) (st : CState) (ev : KeyEvent) : KeyDownResult :=
  if st.showContextMenu then
    if ev.key = "Escape" then
      { st := { st with selectedType := none, selectedMenuIndex := 3 }
        preventDefault := false
        onSendCalled := false
        mentionCommit := none }
    else if ev.key = "ArrowUp" ∨ ev.key = "ArrowDown" then
      let dir : Int := if ev.key = "ArrowUp" then -1 else 1
      let options := gco st.searchQuery st.selectedType
      { st := { st with selectedMenuIndex := arrowNewIndex options dir st.selectedMenuIndex }
        preventDefault := true
        onSendCalled := false
        mentionCommit := none }
    else if ev.key = "Enter" ∧ st.selectedMenuIndex ≠ -1 then
      match listAt? (gco st.searchQuery st.selectedType) st.selectedMenuIndex with
      | some o =>
        if o.type ≠ "url" then
          { st := handleMentionSelect st o.type o.value
            preventDefault := true
            onSendCalled := false
            mentionCommit := some o }
        else
          { st := st, preventDefault := true, onSendCalled := false, mentionCommit := none }
      | none => { st := st, preventDefault := true, onSendCalled := false, mentionCommit := none }
    else handleKeyDownRest rm st ev
  else handleKeyDownRest rm st ev

/-- `handleInputChange` (source lines 235-259); `sscm` is the imported
`shouldShowContextMenu`. -/
def handleInputChange (sscm : JSStr → Int → Bool) (st : CState)
    (newValue : JSStr) (newCursor : Int) : CState :=
  if sscm newValue newCursor then
    let lastAt := jsLastIndexOfFrom newValue '@' (newCursor - 1)
    let query := jsSlice newValue (lastAt + 1) newCursor
    { st with
      inputValue := newValue
      cursorPosition := newCursor
      showContextMenu := true
      searchQuery := query
      selectedMenuIndex := if 0 < query.length then 0 else 3 }
  else
    { st with
      inputValue := newValue
      cursorPosition := newCursor
      showContextMenu := false
      searchQuery := []
      selectedMenuIndex := -1 }

/-- A clipboard entry: its MIME type string and the outcome of the
`getAsFile`/`FileReader` pipeline (`none` models every failure path: a null
blob, a reader error, or a non-string result). -/
structure ClipboardItem where
  mime : JSStr
  decodeResult : Option String
deriving DecidableEq, Repr

/-- `s.split(sep)` in JavaScript, for a single-character separator. -/
def splitOnChar (s : JSStr) (sep : Char) : List JSStr :=
  match s with
  | [] => [[]]
  | c :: rest =>
    if c = sep then [] :: splitOnChar rest sep
    else
      match splitOnChar rest sep with
      | h :: t => (c :: h) :: t
      | [] => [[c]]

/-- The paste filter (source lines 278-282): destructures the split of the
MIME type as `[type, subtype]` and tests
`type === "image" && ["png", "jpeg", "webp"].includes(subtype)` (a missing
subtype is `undefined` and is never included). -/
def isAcceptedImageItem (it : ClipboardItem) : Bool :=
  (((splitOnChar it.mime '/').get? 0) == some "image".data) &&
    (match (splitOnChar it.mime '/').get? 1 with
     | some sub => sub == "png".data || sub == "jpeg".data || sub == "webp".data
     | none => false)

/-- `handlePaste` (source lines 275-316): returns the new attachment list and
whether the default paste was suppressed.  `Promise.all` preserves entry
order, so the joined parallel decodes with failures discarded are the
order-preserving `filterMap`. -/
def handlePaste (shouldDisableImages : Bool) (maxImages : Nat)
    (prevImages : List String) (items : List ClipboardItem) : List String × Bool :=
  let imageItems := items.filter isAcceptedImageItem
  if shouldDisableImages = false ∧ imageItems ≠ [] then
    let dataUrls := imageItems.filterMap ClipboardItem.decodeResult
    if dataUrls ≠ [] then ((prevImages ++ dataUrls).take maxImages, true)
    else (prevImages, true)
  else (prevImages, false)

/-- The user-interface events that reach the component. -/
inductive Event where
  | keyDown (ev : KeyEvent)
  | inputChange (newValue : JSStr) (newCursor : Int)
  | mentionSelect (ty value : String)
  | blur
  | clickOutside
  | pasteEv (shouldDisableImages : Bool) (items : List ClipboardItem)
  | menuMouseDown
  | focus
  | cursorMoved (pos : Int)

/-- One event of the component, before effects (the menu is rendered only
while `showContextMenu` holds, source line 374, so selection and
click-outside events only originate from a visible menu). -/
def rawStep (gco : JSStr → Option String → List MenuOption)
    (rm : JSStr → Int → JSStr × Int) (sscm : JSStr → Int → Bool)
    (maxImages : Nat) (st : CState) : Event → CState
  | .keyDown ev => (handleKeyDown gco rm st ev).st
  | .inputChange v c => handleInputChange sscm st v c
  | .mentionSelect ty value =>
      if st.showContextMenu then handleMentionSelect st ty value else st
  | .blur =>
      { st with
        showContextMenu := if st.isMouseDownOnMenu then st.showContextMenu else false
        isTextAreaFocused := false }
  | .clickOutside =>
      if st.showContextMenu then { st with showContextMenu := false } else st
  | .pasteEv dis items =>
      { st with selectedImages := (handlePaste dis maxImages st.selectedImages items).1 }
  | .menuMouseDown => { st with isMouseDownOnMenu := true }
  | .focus => { st with isTextAreaFocused := true }
  | .cursorMoved p => { st with cursorPosition := p }

/-- The effect at source lines 261-265: it re-runs whenever `showContextMenu`
has just changed, and when the menu is now hidden it clears the category
filter. -/
def menuEffect (oldShow : Bool) (st : CState) : CState :=
  if st.showContextMenu = oldShow then st
  else if st.showContextMenu then st
  else { st with selectedType := none }

/-- One full event cycle: the event handler followed by the effect pass. -/
def step (gco : JSStr → Option String → List MenuOption)
    (rm : JSStr → Int → JSStr × Int) (sscm : JSStr → Int → Bool)
    (maxImages : Nat) (st : CState) (e : Event) : CState :=
  menuEffect st.showContextMenu (rawStep gco rm sscm maxImages st e)

/-- A convenient fully-defaulted state for concrete instantiations. -/
def baseState : CState where
  inputValue := []
  cursorPosition := 0
  showContextMenu := false
  searchQuery := []
  selectedMenuIndex := -1
  selectedType := none
  justDeletedSpaceAfterMention := false
  intendedCursorPosition := none
  selectedImages := []
  isTextAreaFocused := false
  isMouseDownOnMenu := false

/-! Theorems. -/

/-- C1: after a mention selection commits (a url, problems, or concrete
file/folder candidate, i.e. any candidate whose value is not the literal
`file`/`folder`), the cursor stored by the engine — both as the current cursor
and as the deferred cursor target — equals
`indexOf(" ", lastIndexOf("@")) + 1` computed over the new text returned by
`insertMention`. -/
theorem mentionSelect_cursor_after_inserted_space (st : CState) (ty value : String)
    (hv : ¬(value = "file" ∨ value = "folder")) :
    (handleMentionSelect st ty value).inputValue =
      insertMention st.inputValue st.cursorPosition (computeInsertValue ty value) ∧
    (handleMentionSelect st ty value).cursorPosition =
      jsIndexOf (insertMention st.inputValue st.cursorPosition (computeInsertValue ty value)) ' '
        (jsLastIndexOf (insertMention st.inputValue st.cursorPosition (computeInsertValue ty value))
          '@') + 1 ∧
    (handleMentionSelect st ty value).intendedCursorPosition =
      some ((handleMentionSelect st ty value).cursorPosition) := by
  unfold handleMentionSelect
  rw [if_neg hv]
  exact ⟨rfl, rfl, rfl⟩

/-- Witness for C1 at a concrete input: selecting the `problems` candidate on
an empty buffer. -/
theorem mentionSelect_cursor_after_inserted_space_witness :
    (handleMentionSelect baseState "problems" "problems").inputValue =
      insertMention baseState.inputValue baseState.cursorPosition
        (computeInsertValue "problems" "problems") ∧
    (handleMentionSelect baseState "problems" "problems").cursorPosition =
      jsIndexOf (insertMention baseState.inputValue baseState.cursorPosition
          (computeInsertValue "problems" "problems")) ' '
        (jsLastIndexOf (insertMention baseState.inputValue baseState.cursorPosition
          (computeInsertValue "problems" "problems")) '@') + 1 ∧
    (handleMentionSelect baseState "problems" "problems").intendedCursorPosition =
      some ((handleMentionSelect baseState "problems" "problems").cursorPosition) :=
  mentionSelect_cursor_after_inserted_space baseState "problems" "problems" (by decide)

/-- C6: selecting a `file`/`folder` category candidate while the menu is not
yet category-scoped sets the category filter to that category (lower-cased, as
the source does), resets the query to empty, resets the highlighted index to
`0`, and neither closes the menu nor mutates the text buffer; selecting any
other candidate closes the menu and invokes the insertion routine. -/
theorem mentionSelect_category_two_step (st : CState) (ty value : String)
    (_hscope : st.selectedType = none) :
    ((value = "file" ∨ value = "folder") →
      handleMentionSelect st ty value =
        { st with selectedType := some (jsToLower ty), searchQuery := [], selectedMenuIndex := 0 } ∧
      (handleMentionSelect st ty value).showContextMenu = st.showContextMenu ∧
      (handleMentionSelect st ty value).inputValue = st.inputValue ∧
      (handleMentionSelect st ty value).cursorPosition = st.cursorPosition) ∧
    (¬(value = "file" ∨ value = "folder") →
      (handleMentionSelect st ty value).showContextMenu = false ∧
      (handleMentionSelect st ty value).selectedType = none ∧
      (handleMentionSelect st ty value).inputValue =
        insertMention st.inputValue st.cursorPosition (computeInsertValue ty value)) := by
  constructor
  · intro hv
    unfold handleMentionSelect
    rw [if_pos hv]
    exact ⟨rfl, rfl, rfl, rfl⟩
  · intro hv
    unfold handleMentionSelect
    rw [if_neg hv]
    exact ⟨rfl, rfl, rfl⟩

/-- Witness for C6 at a concrete input: selecting the `file` category
candidate from an unscoped open menu. -/
theorem mentionSelect_category_two_step_witness :
    ((("file" : String) = "file" ∨ ("file" : String) = "folder") →
      handleMentionSelect { baseState with showContextMenu := true } "file" "file" =
        { { baseState with showContextMenu := true } with
            selectedType := some (jsToLower "file"), searchQuery := [], selectedMenuIndex := 0 } ∧
      (handleMentionSelect { baseState with showContextMenu := true } "file" "file").showContextMenu =
        ({ baseState with showContextMenu := true } : CState).showContextMenu ∧
      (handleMentionSelect { baseState with showContextMenu := true } "file" "file").inputValue =
        ({ baseState with showContextMenu := true } : CState).inputValue ∧
      (handleMentionSelect { baseState with showContextMenu := true } "file" "file").cursorPosition =
        ({ baseState with showContextMenu := true } : CState).cursorPosition) ∧
    (¬(("file" : String) = "file" ∨ ("file" : String) = "folder") →
      (handleMentionSelect { baseState with showContextMenu := true } "file" "file").showContextMenu = false ∧
      (handleMentionSelect { baseState with showContextMenu := true } "file" "file").selectedType = none ∧
      (handleMentionSelect { baseState with showContextMenu := true } "file" "file").inputValue =
        insertMention ({ baseState with showContextMenu := true } : CState).inputValue
          ({ baseState with showContextMenu := true } : CState).cursorPosition
          (computeInsertValue "file" "file")) :=
  mentionSelect_category_two_step { baseState with showContextMenu := true } "file" "file" rfl

/-- C8: pressing Escape while the menu is open clears the category filter,
resets the highlighted index to the hardcoded default `file` slot (index 3),
and does not by itself close the menu. -/
theorem escape_resets_filter_and_index (gco : JSStr → Option String → List MenuOption)
    (rm : JSStr → Int → JSStr × Int) (st : CState) (sh comp : Bool)
    (hshow : st.showContextMenu = true) :
    handleKeyDown gco rm st { key := "Escape", shiftKey := sh, isComposing := comp } =
      { st := { st with selectedType := none, selectedMenuIndex := 3 }
        preventDefault := false
        onSendCalled := false
        mentionCommit := none } ∧
    (handleKeyDown gco rm st
      { key := "Escape", shiftKey := sh, isComposing := comp }).st.showContextMenu = true := by
  unfold handleKeyDown
  rw [hshow]
  simp [hshow]

/-- Witness for C8 at a concrete input. -/
theorem escape_resets_filter_and_index_witness :
    handleKeyDown (fun _ _ => []) (fun t c => (t, c)) { baseState with showContextMenu := true }
        { key := "Escape", shiftKey := false, isComposing := false } =
      { st := { { baseState with showContextMenu := true } with
                  selectedType := none, selectedMenuIndex := 3 }
        preventDefault := false
        onSendCalled := false
        mentionCommit := none } ∧
    (handleKeyDown (fun _ _ => []) (fun t c => (t, c)) { baseState with showContextMenu := true }
        { key := "Escape", shiftKey := false, isComposing := false }).st.showContextMenu = true :=
  escape_resets_filter_and_index (fun _ _ => []) (fun t c => (t, c))
    { baseState with showContextMenu := true } false false rfl

/-- C10: with the menu visible but no candidate highlighted
(`selectedMenuIndex = -1`), Enter without Shift and without IME composition
does not commit any candidate and falls through to the send path: `onSend` is
invoked and the state — in particular the open menu — is left unchanged. -/
theorem enter_no_highlight_sends (gco : JSStr → Option String → List MenuOption)
    (rm : JSStr → Int → JSStr × Int) (st : CState)
    (hshow : st.showContextMenu = true) (hidx : st.selectedMenuIndex = -1) :
    handleKeyDown gco rm st { key := "Enter", shiftKey := false, isComposing := false } =
      { st := st, preventDefault := true, onSendCalled := true, mentionCommit := none } ∧
    (handleKeyDown gco rm st
      { key := "Enter", shiftKey := false, isComposing := false }).st.showContextMenu = true := by
  unfold handleKeyDown handleKeyDownRest
  rw [hshow]
  simp [hidx, hshow]

/-- Witness for C10 at a concrete input. -/
theorem enter_no_highlight_sends_witness :
    handleKeyDown (fun _ _ => []) (fun t c => (t, c)) { baseState with showContextMenu := true }
        { key := "Enter", shiftKey := false, isComposing := false } =
      { st := { baseState with showContextMenu := true }
        preventDefault := true
        onSendCalled := true
        mentionCommit := none } ∧
    (handleKeyDown (fun _ _ => []) (fun t c => (t, c)) { baseState with showContextMenu := true }
        { key := "Enter", shiftKey := false, isComposing := false }).st.showContextMenu = true :=
  enter_no_highlight_sends (fun _ _ => []) (fun t c => (t, c))
    { baseState with showContextMenu := true } rfl rfl

/-- A Backspace key never triggers the menu block of `handleKeyDown`: it falls
through to the Enter/Backspace section whether or not the menu is open. -/
theorem handleKeyDown_backspace_eq_rest (gco : JSStr → Option String → List MenuOption)
    (rm : JSStr → Int → JSStr × Int) (st : CState) (sh comp : Bool) :
    handleKeyDown gco rm st { key := "Backspace", shiftKey := sh, isComposing := comp } =
      handleKeyDownRest rm st { key := "Backspace", shiftKey := sh, isComposing := comp } := by
  unfold handleKeyDown
  split
  · rw [if_neg (by simp), if_neg (by simp), if_neg (fun h => absurd h.1 (by simp))]
  · rfl

/-- An uncomposed Backspace in the post-menu section runs `backspaceUpdate`. -/
theorem handleKeyDownRest_backspace (rm : JSStr → Int → JSStr × Int) (st : CState) (sh : Bool) :
    handleKeyDownRest rm st { key := "Backspace", shiftKey := sh, isComposing := false } =
      { st := (backspaceUpdate rm st).1
        preventDefault := (backspaceUpdate rm st).2
        onSendCalled := false
        mentionCommit := none } := by
  unfold handleKeyDownRest
  rw [if_neg (fun h => absurd h.1 (by simp)), if_pos ⟨rfl, rfl⟩]

/-- C2 (amended): when the character before the cursor is whitespace and the
text up to that whitespace ends with a mention pattern, an uncomposed
Backspace moves the cursor to just before that whitespace without touching the
text and sets the `justDeletedSpaceAfterMention` flag; the native
single-character deletion is allowed to proceed exactly when the character at
index `cursorPosition + 1` — one position past the character adjacent to the
cursor, as the source computes `charAfterCursor` — is whitespace. -/
theorem backspace_step1_behaviour (gco : JSStr → Option String → List MenuOption)
    (rm : JSStr → Int → JSStr × Int) (st : CState) (sh : Bool)
    (hcond : backspaceStep1Cond st) :
    (handleKeyDown gco rm st
      { key := "Backspace", shiftKey := sh, isComposing := false }).st.inputValue =
        st.inputValue ∧
    (handleKeyDown gco rm st
      { key := "Backspace", shiftKey := sh, isComposing := false }).st.cursorPosition =
        st.cursorPosition - 1 ∧
    (handleKeyDown gco rm st
      { key := "Backspace", shiftKey := sh, isComposing := false }).st.justDeletedSpaceAfterMention =
        true ∧
    (handleKeyDown gco rm st
      { key := "Backspace", shiftKey := sh, isComposing := false }).onSendCalled = false ∧
    (charAfterIsWhitespace st →
      (handleKeyDown gco rm st
        { key := "Backspace", shiftKey := sh, isComposing := false }).preventDefault = false) ∧
    (¬ charAfterIsWhitespace st →
      (handleKeyDown gco rm st
        { key := "Backspace", shiftKey := sh, isComposing := false }).preventDefault = true) := by
  rw [handleKeyDown_backspace_eq_rest, handleKeyDownRest_backspace]
  unfold backspaceUpdate
  rw [if_pos hcond]
  refine ⟨rfl, rfl, rfl, rfl, ?_, ?_⟩
  · intro h; simp [h]
  · intro h; simp [h]

/-- Witness for C2 at the spec's own example: text `see @/src/a.ts for ref`
with the cursor just after the space that follows the mention. -/
theorem backspace_step1_behaviour_witness :
    (handleKeyDown (fun _ _ => []) (fun t c => (t, c))
      { baseState with inputValue := "see @/src/a.ts for ref".data, cursorPosition := 15 }
      { key := "Backspace", shiftKey := false, isComposing := false }).st.inputValue =
        "see @/src/a.ts for ref".data ∧
    (handleKeyDown (fun _ _ => []) (fun t c => (t, c))
      { baseState with inputValue := "see @/src/a.ts for ref".data, cursorPosition := 15 }
      { key := "Backspace", shiftKey := false, isComposing := false }).st.cursorPosition = 14 ∧
    (handleKeyDown (fun _ _ => []) (fun t c => (t, c))
      { baseState with inputValue := "see @/src/a.ts for ref".data, cursorPosition := 15 }
      { key := "Backspace", shiftKey := false,
        isComposing := false }).st.justDeletedSpaceAfterMention = true ∧
    (handleKeyDown (fun _ _ => []) (fun t c => (t, c))
      { baseState with inputValue := "see @/src/a.ts for ref".data, cursorPosition := 15 }
      { key := "Backspace", shiftKey := false, isComposing := false }).preventDefault = true := by
  have h := backspace_step1_behaviour (fun _ _ => []) (fun t c => (t, c))
    { baseState with inputValue := "see @/src/a.ts for ref".data, cursorPosition := 15 }
    false (by decide)
  exact ⟨h.1, by simpa using h.2.1, h.2.2.1, h.2.2.2.2.2 (by decide)⟩

/-- Counterexample to C2 as stated: in `@/x  b` with the cursor at offset 4,
the character immediately after the cursor (`inputValue[4]`) is a space, so
the claim says the native single-character deletion proceeds; but the source
reads `inputValue[cursorPosition + 1] = 'b'`, a non-whitespace character, and
intercepts the event (`preventDefault` is called). -/
theorem backspace_charAfter_cex :
    charAt? ({ baseState with inputValue := "@/x  b".data, cursorPosition := 4 } : CState).inputValue
      ({ baseState with inputValue := "@/x  b".data, cursorPosition := 4 } : CState).cursorPosition =
      some ' ' ∧
    backspaceStep1Cond { baseState with inputValue := "@/x  b".data, cursorPosition := 4 } ∧
    (handleKeyDown (fun _ _ => []) (fun t c => (t, c))
      { baseState with inputValue := "@/x  b".data, cursorPosition := 4 }
      { key := "Backspace", shiftKey := false, isComposing := false }).preventDefault = true := by
  decide

/-- C3: on an uncomposed Backspace with the `justDeletedSpaceAfterMention`
flag set and the step-1 whitespace/mention condition not holding, the handler
uses `removeMention`: the buffer is committed only when the returned text
differs from the input (otherwise no text or cursor mutation is committed and
the native deletion proceeds), and in either case the flag is cleared and the
context menu is closed.  `rm` is universally quantified, so this holds for
every implementation of `removeMention`. -/
theorem backspace_flagged_removeMention (gco : JSStr → Option String → List MenuOption)
    (rm : JSStr → Int → JSStr × Int) (st : CState) (sh : Bool)
    (hflag : st.justDeletedSpaceAfterMention = true)
    (hnot : ¬ backspaceStep1Cond st) :
    (handleKeyDown gco rm st
      { key := "Backspace", shiftKey := sh, isComposing := false }).st.justDeletedSpaceAfterMention =
        false ∧
    (handleKeyDown gco rm st
      { key := "Backspace", shiftKey := sh, isComposing := false }).st.showContextMenu = false ∧
    (handleKeyDown gco rm st
      { key := "Backspace", shiftKey := sh, isComposing := false }).onSendCalled = false ∧
    ((rm st.inputValue st.cursorPosition).1 ≠ st.inputValue →
      (handleKeyDown gco rm st
        { key := "Backspace", shiftKey := sh, isComposing := false }).st.inputValue =
          (rm st.inputValue st.cursorPosition).1 ∧
      (handleKeyDown gco rm st
        { key := "Backspace", shiftKey := sh, isComposing := false }).st.intendedCursorPosition =
          some (rm st.inputValue st.cursorPosition).2 ∧
      (handleKeyDown gco rm st
        { key := "Backspace", shiftKey := sh, isComposing := false }).preventDefault = true) ∧
    ((rm st.inputValue st.cursorPosition).1 = st.inputValue →
      (handleKeyDown gco rm st
        { key := "Backspace", shiftKey := sh, isComposing := false }).st.inputValue =
          st.inputValue ∧
      (handleKeyDown gco rm st
        { key := "Backspace", shiftKey := sh, isComposing := false }).st.cursorPosition =
          st.cursorPosition ∧
      (handleKeyDown gco rm st
        { key := "Backspace", shiftKey := sh, isComposing := false }).st.intendedCursorPosition =
          st.intendedCursorPosition ∧
      (handleKeyDown gco rm st
        { key := "Backspace", shiftKey := sh, isComposing := false }).preventDefault = false) := by
  rw [handleKeyDown_backspace_eq_rest, handleKeyDownRest_backspace]
  unfold backspaceUpdate
  rw [if_neg hnot, if_pos hflag]
  by_cases hch : (rm st.inputValue st.cursorPosition).1 = st.inputValue
  · rw [if_neg (by simpa using hch)]
    exact ⟨rfl, rfl, rfl, fun h => absurd hch h, fun _ => ⟨rfl, rfl, rfl, rfl⟩⟩
  · rw [if_pos (by simpa using hch)]
    exact ⟨rfl, rfl, rfl, fun _ => ⟨rfl, rfl, rfl⟩, fun h => absurd h hch⟩

/-- Witness for C3 at a concrete input: flag set, text `ab` with cursor 2
(step-1 condition fails), and a `removeMention` that strips the first
character, so the changed-text branch commits. -/
theorem backspace_flagged_removeMention_witness :
    (handleKeyDown (fun _ _ => []) (fun t _ => (t.drop 1, 0))
      { baseState with inputValue := "ab".data, cursorPosition := 2, justDeletedSpaceAfterMention := true }
      { key := "Backspace", shiftKey := false, isComposing := false }).st.justDeletedSpaceAfterMention =
        false ∧
    (handleKeyDown (fun _ _ => []) (fun t _ => (t.drop 1, 0))
      { baseState with inputValue := "ab".data, cursorPosition := 2, justDeletedSpaceAfterMention := true }
      { key := "Backspace", shiftKey := false, isComposing := false }).st.showContextMenu = false ∧
    (handleKeyDown (fun _ _ => []) (fun t _ => (t.drop 1, 0))
      { baseState with inputValue := "ab".data, cursorPosition := 2, justDeletedSpaceAfterMention := true }
      { key := "Backspace", shiftKey := false, isComposing := false }).st.inputValue = "b".data ∧
    (handleKeyDown (fun _ _ => []) (fun t _ => (t.drop 1, 0))
      { baseState with inputValue := "ab".data, cursorPosition := 2, justDeletedSpaceAfterMention := true }
      { key := "Backspace", shiftKey := false, isComposing := false }).st.intendedCursorPosition =
        some 0 ∧
    (handleKeyDown (fun _ _ => []) (fun t _ => (t.drop 1, 0))
      { baseState with inputValue := "ab".data, cursorPosition := 2, justDeletedSpaceAfterMention := true }
      { key := "Backspace", shiftKey := false, isComposing := false }).preventDefault = true := by
  have h := backspace_flagged_removeMention (fun _ _ => []) (fun t _ => (t.drop 1, 0))
    { baseState with inputValue := "ab".data, cursorPosition := 2, justDeletedSpaceAfterMention := true }
    false rfl (by decide)
  have hc := h.2.2.2.1 (by decide)
  exact ⟨h.1, h.2.1, hc.1, hc.2.1, hc.2.2⟩

/-- C7 (amended): on paste with images enabled, exactly the clipboard entries
whose MIME type splits on `/` into a first component `image` and a second
component in {png, jpeg, webp} are ingested (the source destructures
`split("/")` as `[type, subtype]`, so e.g. `image/png/x` is also accepted);
entries that fail to decode are dropped; all successful decodes are appended
after the existing attachments and the resulting list is truncated to the
maximum attachment count, keeping the earliest-inserted attachments in their
relative order up to the cap. -/
theorem paste_filter_append_cap (dis : Bool) (maxI : Nat) (prev : List String)
    (items : List ClipboardItem) :
    (∀ it : ClipboardItem, isAcceptedImageItem it = true ↔
      ((splitOnChar it.mime '/').get? 0 = some "image".data ∧
        ∃ s, (splitOnChar it.mime '/').get? 1 = some s ∧
          (s = "png".data ∨ s = "jpeg".data ∨ s = "webp".data))) ∧
    (dis = false → items.filter isAcceptedImageItem ≠ [] →
      (items.filter isAcceptedImageItem).filterMap ClipboardItem.decodeResult ≠ [] →
      handlePaste dis maxI prev items =
        ((prev ++ (items.filter isAcceptedImageItem).filterMap ClipboardItem.decodeResult).take maxI,
          true)) ∧
    (dis = false → items.filter isAcceptedImageItem ≠ [] →
      (items.filter isAcceptedImageItem).filterMap ClipboardItem.decodeResult = [] →
      handlePaste dis maxI prev items = (prev, true)) ∧
    (dis = true → handlePaste dis maxI prev items = (prev, false)) ∧
    (items.filter isAcceptedImageItem = [] → handlePaste dis maxI prev items = (prev, false)) := by
  refine ⟨?_, ?_, ?_, ?_, ?_⟩
  · intro it
    unfold isAcceptedImageItem
    cases h1 : (splitOnChar it.mime '/').get? 1 with
    | none => simp [h1]
    | some sub => simp [h1, or_assoc]
  · intro hd hne hurl
    unfold handlePaste
    rw [if_pos ⟨hd, hne⟩, if_pos hurl]
  · intro hd hne hurl
    unfold handlePaste
    rw [if_pos ⟨hd, hne⟩, if_neg (by simp [hurl])]
  · intro hd
    unfold handlePaste
    rw [if_neg (fun h => by rw [hd] at h; exact absurd h.1 (by simp))]
  · intro hfil
    unfold handlePaste
    rw [if_neg (fun h => h.2 hfil)]

/-- Witness for C7 at a concrete input: two accepted entries (one of which
fails to decode), one rejected `image/gif` entry and one `text/plain` entry,
an existing attachment, and a cap of 2, so the append is truncated. -/
theorem paste_filter_append_cap_witness :
    handlePaste false 2 ["x"]
      [{ mime := "image/png".data, decodeResult := some "a" },
       { mime := "image/gif".data, decodeResult := some "g" },
       { mime := "image/webp".data, decodeResult := none },
       { mime := "text/plain".data, decodeResult := some "t" }] = (["x", "a"], true) := by
  have h := (paste_filter_append_cap false 2 ["x"]
    [{ mime := "image/png".data, decodeResult := some "a" },
     { mime := "image/gif".data, decodeResult := some "g" },
     { mime := "image/webp".data, decodeResult := none },
     { mime := "text/plain".data, decodeResult := some "t" }]).2.1 rfl (by decide) (by decide)
  exact h.trans (by decide)

/-- Counterexample to C7 as stated: the entry with MIME type `image/png/x` is
not of the form `image/<subtype>` with subtype in {png, jpeg, webp}, yet the
source's filter accepts it and its decode is ingested. -/
theorem paste_mime_filter_cex :
    isAcceptedImageItem { mime := "image/png/x".data, decodeResult := some "d" } = true ∧
    ({ mime := "image/png/x".data, decodeResult := some "d" } : ClipboardItem).mime ≠
      "image/png".data ∧
    ({ mime := "image/png/x".data, decodeResult := some "d" } : ClipboardItem).mime ≠
      "image/jpeg".data ∧
    ({ mime := "image/png/x".data, decodeResult := some "d" } : ClipboardItem).mime ≠
      "image/webp".data ∧
    handlePaste false 3 [] [{ mime := "image/png/x".data, decodeResult := some "d" }] =
      (["d"], true) := by
  decide

/-- The selectable-position list never repeats a position. -/
theorem sel_nodup (options : List MenuOption) : (selectablePositions options).Nodup :=
  List.Nodup.filter _ (List.nodup_range _)

/-- A selectable position indexes a non-`url` candidate. -/
theorem mem_sel_type {options : List MenuOption} {i : Nat}
    (h : i ∈ selectablePositions options) :
    ∃ o, options.get? i = some o ∧ o.type ≠ "url" := by
  unfold selectablePositions at h
  obtain ⟨hr, hp⟩ := List.mem_filter.mp h
  cases ho : options.get? i with
  | none => rw [ho] at hp; simp at hp
  | some o => rw [ho] at hp; exact ⟨o, rfl, by simpa using hp⟩

/-- A selectable position is a valid index into the candidate list. -/
theorem sel_mem_lt {options : List MenuOption} {i : Nat}
    (h : i ∈ selectablePositions options) : i < options.length := by
  unfold selectablePositions at h
  exact List.mem_range.mp (List.mem_filter.mp h).1

/-- A successful `get?` lookup is within bounds. -/
theorem lt_length_of_getq {α : Type} {l : List α} {j : Nat} {a : α}
    (h : l.get? j = some a) : j < l.length := by
  by_contra hc
  push_neg at hc
  rw [List.get?_eq_none.mpr hc] at h
  exact Option.noConfusion h

/-- On a duplicate-free list, `findIndexInt` recovers the position of an
entry. -/
theorem findIndexInt_eq : ∀ (l : List Nat), l.Nodup → ∀ (j p : Nat),
    l.get? j = some p → findIndexInt l (p : Int) = (j : Int) := by
  intro l
  induction l with
  | nil => intro _ j p h; simp at h
  | cons a rest ih =>
    intro hnd j p h
    cases j with
    | zero =>
      simp only [List.get?_cons_zero, Option.some.injEq] at h
      subst h
      unfold findIndexInt
      simp
    | succ j =>
      simp only [List.get?_cons_succ] at h
      have hmem : p ∈ rest := List.get?_mem h
      have hne : a ≠ p := fun e => (List.nodup_cons.mp hnd).1 (e ▸ hmem)
      have hr := ih (List.nodup_cons.mp hnd).2 j p h
      unfold findIndexInt
      rw [if_neg (by exact_mod_cast hne), hr, if_neg (by omega)]
      omega

/-- Unfolding `arrowNewIndex` at an argument that is a selectable position. -/
theorem arrowNewIndex_step (options : List MenuOption) (dir : Int) {j p : Nat}
    (hj : (selectablePositions options).get? j = some p) :
    arrowNewIndex options dir (p : Int) =
      posAt (selectablePositions options)
        ((((j : Int) + dir + ((selectablePositions options).length : Int)) %
          ((selectablePositions options).length : Int)).toNat) := by
  have hjlt : j < (selectablePositions options).length := lt_length_of_getq hj
  have hpm : p ∈ selectablePositions options := List.get?_mem hj
  have hplt : p < options.length := sel_mem_lt hpm
  have hop : ¬(options.length = 0) := by omega
  have hsel : ¬((selectablePositions options).length = 0) := by omega
  unfold arrowNewIndex
  rw [if_neg hop]
  show (if (selectablePositions options).length = 0 then (-1 : Int)
    else
      match (selectablePositions options).get?
          (((findIndexInt (selectablePositions options) (p : Int)) + dir +
            ((selectablePositions options).length : Int)) %
            ((selectablePositions options).length : Int)).toNat with
      | some q => (q : Int)
      | none => -1) = _
  rw [if_neg hsel, findIndexInt_eq _ (sel_nodup options) _ _ hj]
  unfold posAt
  rfl

/-- One ArrowDown from the selectable position at slot `j` lands on the
selectable slot `(j + 1) % N`. -/
theorem arrowNewIndex_onedown (options : List MenuOption) {j p : Nat}
    (hj : (selectablePositions options).get? j = some p) :
    arrowNewIndex options 1 (p : Int) =
      posAt (selectablePositions options) ((j + 1) % (selectablePositions options).length) := by
  rw [arrowNewIndex_step options 1 hj]
  congr 1
  have h1 : ((j : Int) + 1 + ((selectablePositions options).length : Int)) =
      (((j + 1 + (selectablePositions options).length : Nat)) : Int) := by push_cast; ring
  rw [h1, ← Int.natCast_mod, Int.toNat_natCast, Nat.add_mod_right]

/-- One ArrowUp from the selectable position at slot `j` lands on the
selectable slot `(j + N - 1) % N`. -/
theorem arrowNewIndex_oneup (options : List MenuOption) {j p : Nat}
    (hj : (selectablePositions options).get? j = some p) :
    arrowNewIndex options (-1) (p : Int) =
      posAt (selectablePositions options)
        ((j + (selectablePositions options).length - 1) % (selectablePositions options).length) := by
  have hjlt : j < (selectablePositions options).length := lt_length_of_getq hj
  rw [arrowNewIndex_step options (-1) hj]
  congr 1
  have h1 : ((j : Int) + (-1) + ((selectablePositions options).length : Int)) =
      (((j + (selectablePositions options).length - 1 : Nat)) : Int) := by omega
  rw [h1, ← Int.natCast_mod, Int.toNat_natCast]

/-- Iterating ArrowDown `t` times from the selectable slot `j` lands on the
selectable slot `(j + t) % N`. -/
theorem arrow_iterate (options : List MenuOption) :
    ∀ (t j : Nat), j < (selectablePositions options).length →
      (fun i => arrowNewIndex options 1 i)^[t] (posAt (selectablePositions options) j) =
        posAt (selectablePositions options) ((j + t) % (selectablePositions options).length) := by
  intro t
  induction t with
  | zero =>
    intro j hj
    simp [Nat.mod_eq_of_lt hj]
  | succ t ih =>
    intro j hj
    rw [Function.iterate_succ_apply]
    have hp : (selectablePositions options).get? j =
        some ((selectablePositions options).get ⟨j, hj⟩) := List.get?_eq_get hj
    have hpos : posAt (selectablePositions options) j =
        (((selectablePositions options).get ⟨j, hj⟩ : Nat) : Int) := by
      unfold posAt; rw [hp]
    have hstep : arrowNewIndex options 1 (posAt (selectablePositions options) j) =
        posAt (selectablePositions options) ((j + 1) % (selectablePositions options).length) := by
      rw [hpos]
      exact arrowNewIndex_onedown options hp
    rw [hstep, ih ((j + 1) % (selectablePositions options).length)
      (Nat.mod_lt _ (by omega))]
    congr 1
    rw [Nat.mod_add_mod]
    congr 1
    omega

/-- C4: while the menu is open, ArrowUp/ArrowDown cycle the highlighted index
over the non-`url` candidates only, wrapping at both ends: one ArrowDown from
selectable slot `j` lands on slot `(j+1) % N` and one ArrowUp on slot
`(j+N-1) % N`; applying ArrowDown `N` times, `N` being the number of
selectable candidates, returns the index to its starting value; and when the
candidate list is empty the index is left untouched (in particular `-1` stays
`-1`). -/
theorem arrow_cycle_spec (options : List MenuOption) (prev : Int) :
    (options = [] → ∀ dir : Int, arrowNewIndex options dir prev = prev) ∧
    (options = [] → prev = -1 → ∀ dir : Int, arrowNewIndex options dir prev = -1) ∧
    (∀ j p q : Nat, (selectablePositions options).get? j = some p → prev = (p : Int) →
      (selectablePositions options).get? ((j + 1) % (selectablePositions options).length) =
        some q →
      arrowNewIndex options 1 prev = (q : Int)) ∧
    (∀ j p q : Nat, (selectablePositions options).get? j = some p → prev = (p : Int) →
      (selectablePositions options).get?
        ((j + (selectablePositions options).length - 1) % (selectablePositions options).length) =
          some q →
      arrowNewIndex options (-1) prev = (q : Int)) ∧
    (∀ j p : Nat, (selectablePositions options).get? j = some p → prev = (p : Int) →
      (fun i => arrowNewIndex options 1 i)^[(selectablePositions options).length] prev = prev) := by
  refine ⟨?_, ?_, ?_, ?_, ?_⟩
  · intro h dir
    unfold arrowNewIndex
    rw [if_pos (by simp [h])]
  · intro h hp dir
    subst hp
    unfold arrowNewIndex
    rw [if_pos (by simp [h])]
  · intro j p q hj hp hq
    subst hp
    rw [arrowNewIndex_onedown options hj]
    unfold posAt
    rw [hq]
  · intro j p q hj hp hq
    subst hp
    rw [arrowNewIndex_oneup options hj]
    unfold posAt
    rw [hq]
  · intro j p hj hp
    subst hp
    have hjlt : j < (selectablePositions options).length := lt_length_of_getq hj
    have hpj : (p : Int) = posAt (selectablePositions options) j := by
      unfold posAt; rw [hj]
    rw [hpj, arrow_iterate options (selectablePositions options).length j hjlt,
      Nat.add_mod_right, Nat.mod_eq_of_lt hjlt]

/-- Witness for C4 at a concrete input: candidates
`[problems, url, file /a, file /b]` have selectable positions `[0, 2, 3]`, so
three ArrowDowns from index 0 return to index 0, and a single ArrowDown from
index 0 skips the url entry and lands on index 2. -/
theorem arrow_cycle_spec_witness :
    (fun i => arrowNewIndex [{ type := "problems", value := "problems" },
      { type := "url", value := "u" }, { type := "file", value := "/a" },
      { type := "file", value := "/b" }] 1 i)^[3] 0 = 0 ∧
    arrowNewIndex [{ type := "problems", value := "problems" },
      { type := "url", value := "u" }, { type := "file", value := "/a" },
      { type := "file", value := "/b" }] 1 0 = 2 := by
  constructor
  · exact (arrow_cycle_spec [{ type := "problems", value := "problems" },
      { type := "url", value := "u" }, { type := "file", value := "/a" },
      { type := "file", value := "/b" }] 0).2.2.2.2 0 0 (by decide) rfl
  · exact (arrow_cycle_spec [{ type := "problems", value := "problems" },
      { type := "url", value := "u" }, { type := "file", value := "/a" },
      { type := "file", value := "/b" }] 0).2.2.1 0 0 2 (by decide) rfl (by decide)

/-- C5: a `url` candidate is never committed by keyboard.  `Enter` commits the
highlighted candidate only when its category is not `url` (for every state,
key event, provider and `removeMention`), and whenever the candidate list has
at least one non-`url` entry, arrow navigation always lands the highlighted
index on a non-`url` candidate. -/
theorem url_never_keyboard_committed (gco : JSStr → Option String → List MenuOption)
    (rm : JSStr → Int → JSStr × Int) (st : CState) (ev : KeyEvent) (o : MenuOption) :
    ((handleKeyDown gco rm st ev).mentionCommit = some o → o.type ≠ "url") ∧
    (∀ (options : List MenuOption) (dir prev : Int),
      selectablePositions options ≠ [] →
      ∃ (p : Nat) (o2 : MenuOption),
        arrowNewIndex options dir prev = (p : Int) ∧
        options.get? p = some o2 ∧ o2.type ≠ "url") := by
  constructor
  · intro hc
    unfold handleKeyDown handleKeyDownRest at hc
    repeat' split at hc
    all_goals simp_all
  · intro options dir prev hne
    have hlen : ¬((selectablePositions options).length = 0) := by
      intro h; exact hne (List.length_eq_zero.mp h)
    obtain ⟨x, hx⟩ := List.exists_mem_of_ne_nil _ hne
    have hop : ¬(options.length = 0) := by
      have := sel_mem_lt hx; omega
    have hNpos : (0 : Int) < ((selectablePositions options).length : Int) := by omega
    have h0 : 0 ≤ (findIndexInt (selectablePositions options) prev + dir +
        ((selectablePositions options).length : Int)) %
        ((selectablePositions options).length : Int) :=
      Int.emod_nonneg _ (by omega)
    have h1 : (findIndexInt (selectablePositions options) prev + dir +
        ((selectablePositions options).length : Int)) %
        ((selectablePositions options).length : Int) <
        ((selectablePositions options).length : Int) :=
      Int.emod_lt_of_pos _ hNpos
    have htn : ((findIndexInt (selectablePositions options) prev + dir +
        ((selectablePositions options).length : Int)) %
        ((selectablePositions options).length : Int)).toNat <
        (selectablePositions options).length := by omega
    obtain ⟨q, hq⟩ : ∃ q, (selectablePositions options).get?
        ((findIndexInt (selectablePositions options) prev + dir +
          ((selectablePositions options).length : Int)) %
          ((selectablePositions options).length : Int)).toNat = some q :=
      ⟨_, List.get?_eq_get htn⟩
    obtain ⟨o2, ho2, hurl⟩ := mem_sel_type (List.get?_mem hq)
    refine ⟨q, o2, ?_, ho2, hurl⟩
    unfold arrowNewIndex
    rw [if_neg hop]
    show (if (selectablePositions options).length = 0 then (-1 : Int)
      else
        match (selectablePositions options).get?
            ((findIndexInt (selectablePositions options) prev + dir +
              ((selectablePositions options).length : Int)) %
              ((selectablePositions options).length : Int)).toNat with
        | some q => (q : Int)
        | none => -1) = _
    rw [if_neg hlen, hq]

/-- Witness for C5 at a concrete input: an open menu over
`[problems, url, file /a]`, Enter on the highlighted `problems` entry, and one
arrow move. -/
theorem url_never_keyboard_committed_witness :
    (({ type := "problems", value := "problems" } : MenuOption).type ≠ "url") ∧
    (∃ (p : Nat) (o2 : MenuOption),
      arrowNewIndex [{ type := "problems", value := "problems" },
        { type := "url", value := "u" }, { type := "file", value := "/a" }] 1 (-1) = (p : Int) ∧
      [({ type := "problems", value := "problems" } : MenuOption),
        { type := "url", value := "u" }, { type := "file", value := "/a" }].get? p = some o2 ∧
      o2.type ≠ "url") := by
  constructor
  · exact (url_never_keyboard_committed
      (fun _ _ => [{ type := "problems", value := "problems" },
        { type := "url", value := "u" }, { type := "file", value := "/a" }])
      (fun t c => (t, c))
      { baseState with showContextMenu := true, selectedMenuIndex := 0 }
      { key := "Enter", shiftKey := false, isComposing := false }
      { type := "problems", value := "problems" }).1 (by decide)
  · exact (url_never_keyboard_committed
      (fun _ _ => [{ type := "problems", value := "problems" },
        { type := "url", value := "u" }, { type := "file", value := "/a" }])
      (fun t c => (t, c))
      { baseState with showContextMenu := true, selectedMenuIndex := 0 }
      { key := "Enter", shiftKey := false, isComposing := false }
      { type := "problems", value := "problems" }).2
      [{ type := "problems", value := "problems" },
        { type := "url", value := "u" }, { type := "file", value := "/a" }] 1 (-1) (by decide)

/-- The menu effect never changes the menu visibility itself. -/
theorem menuEffect_show (old : Bool) (st1 : CState) :
    (menuEffect old st1).showContextMenu = st1.showContextMenu := by
  unfold menuEffect
  split_ifs <;> rfl

/-- When the effect observes no change in visibility, it does nothing. -/
theorem menuEffect_same (old : Bool) (st1 : CState) (h : st1.showContextMenu = old) :
    menuEffect old st1 = st1 := by
  unfold menuEffect
  rw [if_pos h]

/-- When the visibility has just changed to hidden, the effect clears the
category filter. -/
theorem menuEffect_clears (old : Bool) (st1 : CState)
    (hchg : ¬ st1.showContextMenu = old) (hhid : st1.showContextMenu = false) :
    (menuEffect old st1).selectedType = none := by
  unfold menuEffect
  rw [if_neg hchg, if_neg (by simp [hhid])]

/-- Every event handler either clears the category filter, leaves it
untouched, or leaves the menu visible. -/
theorem rawStep_selectedType (gco : JSStr → Option String → List MenuOption)
    (rm : JSStr → Int → JSStr × Int) (sscm : JSStr → Int → Bool)
    (maxI : Nat) (st : CState) (e : Event) :
    (rawStep gco rm sscm maxI st e).selectedType = none ∨
    (rawStep gco rm sscm maxI st e).selectedType = st.selectedType ∨
    (rawStep gco rm sscm maxI st e).showContextMenu = true := by
  cases e with
  | keyDown ev =>
    simp only [rawStep]
    unfold handleKeyDown handleKeyDownRest handleMentionSelect backspaceUpdate
    repeat' split
    all_goals simp_all [apply_ite]
  | inputChange v c =>
    simp only [rawStep]
    unfold handleInputChange
    split <;> simp
  | mentionSelect ty value =>
    simp only [rawStep]
    unfold handleMentionSelect
    repeat' split
    all_goals simp_all
  | blur => simp [rawStep]
  | clickOutside =>
    simp only [rawStep]
    split <;> simp
  | pasteEv dis items => simp [rawStep]
  | menuMouseDown => simp [rawStep]
  | focus => simp [rawStep]
  | cursorMoved p => simp [rawStep]

/-- C9: invariant — if the category filter was clear whenever the menu was
hidden, then after any event (handler plus the effect pass of source lines
261-265) a hidden menu again implies a clear category filter; the filter is
never observable while the menu is closed. -/
theorem hidden_menu_clears_filter (gco : JSStr → Option String → List MenuOption)
    (rm : JSStr → Int → JSStr × Int) (sscm : JSStr → Int → Bool)
    (maxI : Nat) (st : CState) (e : Event)
    (hinv : st.showContextMenu = false → st.selectedType = none)
    (hhid : (step gco rm sscm maxI st e).showContextMenu = false) :
    (step gco rm sscm maxI st e).selectedType = none := by
  unfold step at *
  have hshow : (rawStep gco rm sscm maxI st e).showContextMenu = false := by
    rw [← menuEffect_show st.showContextMenu (rawStep gco rm sscm maxI st e)]
    exact hhid
  by_cases hchg : (rawStep gco rm sscm maxI st e).showContextMenu = st.showContextMenu
  · rw [menuEffect_same _ _ hchg]
    rcases rawStep_selectedType gco rm sscm maxI st e with h | h | h
    · exact h
    · rw [h]
      exact hinv (hchg.symm.trans hshow)
    · rw [h] at hshow
      exact absurd hshow (by simp)
  · exact menuEffect_clears _ _ hchg hshow

/-- Witness for C9 at a concrete input: a blur event on the default state. -/
theorem hidden_menu_clears_filter_witness :
    (step (fun _ _ => []) (fun t c => (t, c)) (fun _ _ => false) 20 baseState
      Event.blur).selectedType = none :=
  hidden_menu_clears_filter (fun _ _ => []) (fun t c => (t, c)) (fun _ _ => false) 20 baseState
    Event.blur (fun _ => rfl) (by decide)

end ChatText
